import Mathlib

/-!
Verification of the BMADFlow backend core against its specification.

Python source files are shallowly embedded: Python strings become `List Char`,
Python ints become `Nat`/`Int`, floats become `ℚ` (with the external pgvector
cosine operator related to an exact real-valued definition where a claim needs
it), exceptions become `Except`, and external I/O (HTTP calls, the database
engine, the embedding endpoint, wall clocks) becomes explicit oracle
parameters.  Each definition mirrors one function of the repository and keeps
its name.
-/

namespace BmadFlow

/-- Python `str` is modelled as a list of characters. -/
abbrev PyStr := List Char

/-! ## app/utils/markdown_parser.py -/

/-- ASCII case mapping used by `str.lower()` (the anchors the parser produces
only keep `[a-z0-9-]`, so the ASCII fragment is the relevant one). -/
def pyLowerChar (c : Char) : Char :=
  if 'A' ≤ c ∧ c ≤ 'Z' then Char.ofNat (c.toNat + 32) else c

/-- `re.sub(r"[^a-z0-9-]", "", anchor)` keeps exactly these characters. -/
def isAnchorChar (c : Char) : Bool :=
  ('a' ≤ c && c ≤ 'z') || ('0' ≤ c && c ≤ '9') || c == '-'

/-- Python `s.strip("-")`: drop leading and trailing hyphens. -/
def stripHyphens (s : PyStr) : PyStr :=
  ((s.dropWhile (· == '-')).reverse.dropWhile (· == '-')).reverse

/-- `markdown_parser.header_to_anchor`: lowercase, replace spaces with
hyphens, delete characters outside `[a-z0-9-]`, strip hyphens; empty input
returns the empty string. -/
def header_to_anchor (header_text : PyStr) : PyStr :=
  if header_text = [] then []
  else
    stripHyphens
      (((header_text.map pyLowerChar).map
          (fun c => if c = ' ' then '-' else c)).filter isAnchorChar)

/-- Modelled from the spec: "lowercase the text; replace spaces with hyphens;
remove every character that is not `[a-z0-9-]`; trim leading/trailing
hyphens."  Written independently of `header_to_anchor` as a single pipeline
over characters, to be compared with the code's definition. -/
def anchorGen (text : PyStr) : PyStr :=
  stripHyphens
    ((text.map (fun c => if pyLowerChar c = ' ' then '-' else pyLowerChar c)).filter
      isAnchorChar)

/-- `markdown_parser.HeaderInfo`. -/
structure HeaderInfo where
  text : PyStr
  level : Nat
  line_number : Nat
  anchor : PyStr
  char_position : Nat
deriving DecidableEq, Repr

/-- The sort key of `find_nearest_header`:
`preceding_headers.sort(key=lambda h: (-h.char_position, h.level))`, i.e.
`a` comes no later than `b` iff `a` has the larger position, or equal
positions and `a.level ≤ b.level`. -/
def nearestKeyLE (a b : HeaderInfo) : Prop :=
  b.char_position < a.char_position ∨
    (a.char_position = b.char_position ∧ a.level ≤ b.level)

instance : DecidableRel nearestKeyLE := fun a b => by
  unfold nearestKeyLE; infer_instance

instance : IsTotal HeaderInfo nearestKeyLE :=
  ⟨by intro a b; unfold nearestKeyLE; omega⟩

instance : IsTrans HeaderInfo nearestKeyLE :=
  ⟨by intro a b c; unfold nearestKeyLE; omega⟩

/-- `markdown_parser.find_nearest_header`: filter the headers strictly before
the chunk position, sort by `(-char_position, level)`, return the anchor of
the first one unless it is empty. -/
def find_nearest_header (chunk_position : Nat) (headers : List HeaderInfo) :
    Option PyStr :=
  match List.insertionSort nearestKeyLE
      (headers.filter (fun h => h.char_position < chunk_position)) with
  | [] => none
  | nearest :: _ => if nearest.anchor = [] then none else some nearest.anchor

/-! ## app/repositories/chunk_repository.py -/

/-- A row of the `chunks` table (the fields the claims use). -/
structure ChunkRow where
  id : Nat
  document_id : Nat
  chunk_text : PyStr
  chunk_index : Nat
  header_anchor : Option PyStr
  embedding : List ℚ
deriving DecidableEq, Repr

/-- A row of the `documents` table as seen from the chunk queries. -/
structure DocumentRef where
  id : Nat
  project_doc_id : Nat
  file_path : PyStr
deriving DecidableEq, Repr

/-- A row of the `project_docs` table (links a document collection to its
project). -/
structure ProjectDocRef where
  id : Nat
  project_id : Nat
deriving DecidableEq, Repr

/-- The tables touched by `similarity_search`. -/
structure VectorDb where
  chunks : List ChunkRow
  documents : List DocumentRef
  project_docs : List ProjectDocRef
deriving Repr

/-- The relational join
`Chunk JOIN Document ON Chunk.document_id = Document.id
       JOIN ProjectDoc ON Document.project_doc_id = ProjectDoc.id`
of the `similarity_search` query. -/
def joinedRows (db : VectorDb) :
    List (ChunkRow × DocumentRef × ProjectDocRef) :=
  db.chunks.flatMap fun c =>
    (db.documents.filter fun d => d.id == c.document_id).flatMap fun d =>
      (db.project_docs.filter fun p => p.id == d.project_doc_id).map fun p =>
        (c, d, p)

/-- The `ORDER BY cosine_distance` comparison on joined rows, for a given
engine-computed distance `dist` of each stored embedding to the query. -/
def rowDistLE (dist : List ℚ → ℚ) (a b : ChunkRow × DocumentRef × ProjectDocRef) :
    Prop :=
  dist a.1.embedding ≤ dist b.1.embedding

instance (dist : List ℚ → ℚ) : DecidableRel (rowDistLE dist) := fun a b => by
  unfold rowDistLE; infer_instance

instance (dist : List ℚ → ℚ) :
    IsTotal (ChunkRow × DocumentRef × ProjectDocRef) (rowDistLE dist) :=
  ⟨fun a b => le_total (dist a.1.embedding) (dist b.1.embedding)⟩

instance (dist : List ℚ → ℚ) :
    IsTrans (ChunkRow × DocumentRef × ProjectDocRef) (rowDistLE dist) :=
  ⟨fun _ _ _ => le_trans⟩

/-- `ChunkRepository.similarity_search`: validate `limit ∈ [1,20]`, join to
the project, order by cosine distance ascending, take `limit` rows, and
return each chunk with score `1 - distance`.  The pgvector cosine-distance
operator runs inside the database engine, outside this repository; its
per-embedding values enter through the oracle `dist`. -/
def similarity_search (db : VectorDb) (dist : List ℚ → ℚ) (project_id : Nat)
    (limit : Int) : Except PyStr (List (ChunkRow × ℚ)) :=
  if limit < 1 ∨ limit > 20 then
    .error ("limit must be between 1 and 20".toList)
  else
    .ok (((List.insertionSort (rowDistLE dist)
        ((joinedRows db).filter fun r => r.2.2.project_id == project_id)).take
          limit.toNat).map fun r => (r.1, 1 - dist r.1.embedding))

/-- Dot product of two vectors (up to the shorter length, as the engine
requires equal dimensions anyway). -/
def dotL (a b : List ℝ) : ℝ :=
  ∑ i ∈ Finset.range (min a.length b.length), a.getD i 0 * b.getD i 0

/-- Modelled from the spec: pgvector's cosine-distance operator is external
to the repository; the spec's glossary defines cosine distance as one minus
the cosine similarity of the two vectors. -/
noncomputable def cosineDistance (a b : List ℝ) : ℝ :=
  1 - dotL a b / (Real.sqrt (dotL a a) * Real.sqrt (dotL b b))

/-- The embedding column holds the engine's numeric vectors; claims relate
them to real-valued cosine geometry through this coercion. -/
def ratEmbed (v : List ℚ) : List ℝ := v.map (fun (q : ℚ) => (q : ℝ))

/-! ## app/agents/tools/vector_search.py and app/agents/rag_agent.py -/

/-- `ChunkResult` of the vector-search tool. -/
structure ChunkResult where
  chunk_id : Nat
  document_id : Nat
  chunk_text : PyStr
  file_path : PyStr
  header_anchor : Option PyStr
  similarity_score : ℚ
  chunk_index : Nat
deriving DecidableEq, Repr

/-- `chunk.document.file_path if chunk.document else ""`. -/
def filePathOf (db : VectorDb) (c : ChunkRow) : PyStr :=
  match db.documents.find? (fun d => d.id == c.document_id) with
  | some d => d.file_path
  | none => []

/-- Python `round(x, 4)`: round half to even at four decimal places
(modelled exactly on rationals). -/
def pyRoundHalfEven (x : ℚ) : ℤ :=
  if x - ⌊x⌋ < 1 / 2 then ⌊x⌋
  else if 1 / 2 < x - ⌊x⌋ then ⌊x⌋ + 1
  else if Even ⌊x⌋ then ⌊x⌋ else ⌊x⌋ + 1

/-- `round(similarity, 4)` in `VectorSearchTool.execute`. -/
def round4 (x : ℚ) : ℚ := (pyRoundHalfEven (x * 10000) : ℚ) / 10000

/-- `VectorSearchTool.execute`, given the repository's search output: keep
the rows whose similarity reaches the threshold, in order, and build a
`ChunkResult` for each (with the similarity rounded to 4 decimal places). -/
def vectorSearchExecute (db : VectorDb) (similarity_threshold : ℚ)
    (results : List (ChunkRow × ℚ)) : List ChunkResult :=
  results.filterMap fun r =>
    if similarity_threshold ≤ r.2 then
      some
        { chunk_id := r.1.id
          document_id := r.1.document_id
          chunk_text := r.1.chunk_text
          file_path := filePathOf db r.1
          header_anchor := r.1.header_anchor
          similarity_score := round4 r.2
          chunk_index := r.1.chunk_index }
    else none

/-- A `SourceAttribution` entry of a RAG response. -/
structure SourceAttribution where
  document_id : Nat
  file_path : PyStr
  header_anchor : Option PyStr
  similarity_score : ℚ
deriving DecidableEq, Repr

/-- A `RAGResponse`. -/
structure RAGResponse where
  response_text : PyStr
  sources : List SourceAttribution
deriving DecidableEq, Repr

/-- The fixed no-results answer of `RAGAgent.process_query`. -/
def NO_RESULTS_TEXT : PyStr :=
  ("I couldn\x27t find any relevant information in the documentation to answer your question. Please try rephrasing or ask about a different topic.").toList

/-- `RAGAgent._format_sources`. -/
def format_sources (chunks : List ChunkResult) : List SourceAttribution :=
  chunks.map fun c =>
    ⟨c.document_id, c.file_path, c.header_anchor, c.similarity_score⟩

/-- `RAGAgent.process_query`, given the repository's search output
(`searchResults`) and the completion provider as the oracle `llm`: when the
thresholded chunk list is empty, answer with the fixed text and no sources
without consulting `llm`; otherwise the answer is `llm`'s text (failures
propagate) with one source per retrieved chunk, in order. -/
def process_query (db : VectorDb) (similarity_threshold : ℚ)
    (searchResults : List (ChunkRow × ℚ)) (llm : Except PyStr PyStr) :
    Except PyStr RAGResponse :=
  let chunks := vectorSearchExecute db similarity_threshold searchResults
  if chunks = [] then .ok ⟨NO_RESULTS_TEXT, []⟩
  else llm.map fun response_text => ⟨response_text, format_sources chunks⟩

/-! ## app/services/github_service.py -/

/-- `GitHubService._check_rate_limit`, expressed as the number of seconds the
calling task is suspended (`asyncio.sleep`): the three rate-limit headers
default to remaining=999, limit=60, reset=0 when absent; below 5 remaining
and with the reset time still in the future the coroutine sleeps until the
reset, otherwise it returns at once.  The body contains no raise, so the
model is a total function into the wait duration. -/
def check_rate_limit (remainingHdr limitHdr resetHdr : Option Nat) (now : ℚ) :
    ℚ :=
  let remaining := remainingHdr.getD 999
  let _limit := limitHdr.getD 60
  let reset : ℚ := (resetHdr.getD 0 : Nat)
  if remaining < 5 then (if 0 < reset - now then reset - now else 0) else 0

/-! ## app/repositories/document_repository.py -/

/-- A row of the `documents` table. -/
structure DocumentRow where
  id : Nat
  project_doc_id : Nat
  file_path : PyStr
  content : PyStr
  file_type : PyStr
  file_size : Nat
  doc_metadata : List (PyStr × PyStr)
  created_at : Nat
  updated_at : Nat
deriving DecidableEq, Repr

/-- Python dict assignment `m[k] = v` on an association list. -/
def metaSet (m : List (PyStr × PyStr)) (k v : PyStr) : List (PyStr × PyStr) :=
  if m.any (fun p => p.1 == k) then
    m.map (fun p => if p.1 == k then (k, v) else p)
  else m ++ [(k, v)]

/-- The metadata built by the insert branch of `upsert`: the commit-sha entry
first, then the caller's metadata assigned over it. -/
def metaInsert (commit_sha : PyStr) (metadata : Option (List (PyStr × PyStr))) :
    List (PyStr × PyStr) :=
  (metadata.getD []).foldl (fun m p => metaSet m p.1 p.2)
    [(("github_commit_sha").toList, commit_sha)]

/-- The metadata built by the update branch of `upsert`: `metadata or ` an
empty dict, then the commit-sha entry assigned over it. -/
def metaUpdate (commit_sha : PyStr) (metadata : Option (List (PyStr × PyStr))) :
    List (PyStr × PyStr) :=
  metaSet (metadata.getD []) (("github_commit_sha").toList) commit_sha

/-- The `WHERE project_doc_id = ... AND file_path = ...` predicate of
`upsert`'s lookup. -/
def docMatches (project_doc_id : Nat) (file_path : PyStr) (d : DocumentRow) :
    Bool :=
  d.project_doc_id == project_doc_id && d.file_path == file_path

/-- `DocumentRepository.upsert` over the documents table, with the engine's
generated row id and clock as the parameters `newId` and `now`:
`scalar_one_or_none` errors when several rows match; one match updates that
row in place (content, file size, file type, metadata, updated timestamp);
no match appends a fresh row. -/
def upsert (db : List DocumentRow) (newId now : Nat) (project_doc_id : Nat)
    (file_path content file_type : PyStr) (file_size : Nat) (commit_sha : PyStr)
    (metadata : Option (List (PyStr × PyStr))) :
    Except PyStr (DocumentRow × List DocumentRow) :=
  if 2 ≤ (db.filter (docMatches project_doc_id file_path)).length then
    .error (("Multiple rows were found when one or none was required").toList)
  else
    match db.find? (docMatches project_doc_id file_path) with
    | some existing_doc =>
      let updated := { existing_doc with
        content := content
        file_size := file_size
        file_type := file_type
        doc_metadata := metaUpdate commit_sha metadata
        updated_at := now }
      .ok (updated,
        db.map (fun d => if docMatches project_doc_id file_path d then updated else d))
    | none =>
      let new_doc : DocumentRow :=
        ⟨newId, project_doc_id, file_path, content, file_type, file_size,
          metaInsert commit_sha metadata, now, now⟩
      .ok (new_doc, db ++ [new_doc])

/-! ## app/services/document_service.py and project_doc_service.py -/

/-- `FileInfo` from the repository tree listing (the fields the sync uses). -/
structure FileInfo where
  path : PyStr
  sha : PyStr
deriving DecidableEq, Repr

/-- A stored `Document` as the embedding pipeline sees it. -/
structure StoredDoc where
  id : Nat
  file_path : PyStr
  file_type : PyStr
  content : PyStr
deriving DecidableEq, Repr

/-- `SyncResult` (the pydantic schema's fields). -/
structure SyncResult where
  success : Bool
  files_synced : Nat
  files_failed : Nat
  errors : List PyStr
  duration_seconds : ℚ
deriving DecidableEq, Repr

/-- One iteration of the `store_documents_batch` loop: a stored document is
appended, a storage exception is only logged. -/
def storeStep (store : FileInfo → PyStr → PyStr → Except PyStr StoredDoc)
    (stored_docs : List StoredDoc) (f : FileInfo × PyStr × PyStr) :
    List StoredDoc :=
  match store f.1 f.2.1 f.2.2 with
  | .ok doc => stored_docs ++ [doc]
  | .error _ => stored_docs

/-- `DocumentService.store_documents_batch`: store each downloaded file,
dropping (with only a log line) any file whose storage raises. -/
def store_documents_batch
    (store : FileInfo → PyStr → PyStr → Except PyStr StoredDoc)
    (files : List (FileInfo × PyStr × PyStr)) : List StoredDoc :=
  files.foldl (storeStep store) []

/-- `ProjectDocService._batch`: `items[i : i + size]` slices.  Python's
`range(0, n, 0)` would raise, so a zero size is never used (the caller
passes 5); the model returns no batches there. -/
def pyBatch : List α → Nat → List (List α)
  | [], _ => []
  | _ :: _, 0 => []
  | a :: t, (k + 1) => (a :: t).take (k + 1) :: pyBatch ((a :: t).drop (k + 1)) (k + 1)
termination_by l _ => l.length
decreasing_by simp [List.length_drop]; omega

/-- The error-message formats of the sync loop (Python f-strings). -/
def notFoundMsg (project_doc_id : Nat) : PyStr :=
  ("ProjectDoc ").toList ++ (Nat.repr project_doc_id).toList ++ (" not found").toList

/-- `f"Sync failed for ProjectDoc ...: ..."` of the outer handler. -/
def syncFailMsg (project_doc_id : Nat) (e : PyStr) : PyStr :=
  ("Sync failed for ProjectDoc ").toList ++ (Nat.repr project_doc_id).toList ++
    (": ").toList ++ e

/-- `f"Failed to download ...: ..."`. -/
def downloadFailMsg (path e : PyStr) : PyStr :=
  ("Failed to download ").toList ++ path ++ (": ").toList ++ e

/-- `f"Embedding failed for ...: ..."`. -/
def embedFailMsg (path e : PyStr) : PyStr :=
  ("Embedding failed for ").toList ++ path ++ (": ").toList ++ e

/-- One iteration of the step-2 download loop: a download failure is caught,
logged into the error list, and does not stop the run. -/
def downloadStep (download : FileInfo → Except PyStr (PyStr × PyStr))
    (acc : List (FileInfo × PyStr × PyStr) × List PyStr) (f : FileInfo) :
    List (FileInfo × PyStr × PyStr) × List PyStr :=
  match download f with
  | .ok cs => (acc.1 ++ [(f, cs.1, cs.2)], acc.2)
  | .error e => (acc.1, acc.2 ++ [downloadFailMsg f.path e])

/-- Handling of one gathered per-document result in step 4 of the sync:
a success adds its embedding count, an exception records the file as failed
and appends its error message.  The accumulator is
(embeddings created, failed files, error messages). -/
def processDoc (embed : StoredDoc → Except PyStr Nat)
    (acc : Nat × List PyStr × List PyStr) (doc : StoredDoc) :
    Nat × List PyStr × List PyStr :=
  match embed doc with
  | .ok n => (acc.1 + n, acc.2.1, acc.2.2)
  | .error e =>
    (acc.1, acc.2.1 ++ [doc.file_path], acc.2.2 ++ [embedFailMsg doc.file_path e])

/-- Step 4 of the sync: batches are processed one after another, and inside a
batch the gathered results are consumed in order. -/
def processBatches (embed : StoredDoc → Except PyStr Nat)
    (batches : List (List StoredDoc)) (init : Nat × List PyStr × List PyStr) :
    Nat × List PyStr × List PyStr :=
  batches.foldl (fun acc batch => batch.foldl (processDoc embed) acc) init

/-- Outcome of the step-5 `get_last_commit_date` call: a `GitHubAPIError` is
caught and replaced by the current time, any other exception escapes to the
outer handler. -/
inductive CommitOutcome where
  | ok
  | ghError (msg : PyStr)
  | unhandled (msg : PyStr)
deriving DecidableEq, Repr

/-- `ProjectDocService.sync_project_doc` with its external collaborators as
oracles: the ProjectDoc lookup, the tree listing, per-file download, per-file
document storage, the per-document chunk/embed/index pipeline, the step-5
commit-date call, and the wall clock. -/
def sync_project_doc (project_doc_id : Nat) (project_doc_found : Bool)
    (tree : Except PyStr (List FileInfo))
    (download : FileInfo → Except PyStr (PyStr × PyStr))
    (store : FileInfo → PyStr → PyStr → Except PyStr StoredDoc)
    (embed : StoredDoc → Except PyStr Nat)
    (commit_date : CommitOutcome) (duration : ℚ) : SyncResult :=
  if project_doc_found = false then
    ⟨false, 0, 0, [notFoundMsg project_doc_id], duration⟩
  else
    match tree with
    | .error e => ⟨false, 0, 0, [syncFailMsg project_doc_id e], duration⟩
    | .ok files =>
      let dl := files.foldl (downloadStep download) ([], [])
      let stored_docs := store_documents_batch store dl.1
      let processed := processBatches embed (pyBatch stored_docs 5) (0, [], [])
      match commit_date with
      | .unhandled e =>
        ⟨false, 0, files.length, [syncFailMsg project_doc_id e], duration⟩
      | _ =>
        ⟨true, stored_docs.length, processed.2.1.length, dl.2 ++ processed.2.2,
          duration⟩

/-! ## app/services/llm_service.py and embedding_service.py -/

/-- The Python exception kinds the two retry loops distinguish. -/
inductive PyExc where
  | httpRequestError (msg : PyStr)
  | httpTimeout (msg : PyStr)
  | connectionError (msg : PyStr)
  | timeoutError (msg : PyStr)
  | valueError (msg : PyStr)
  | llmProviderError (msg : PyStr)
deriving DecidableEq, Repr

/-- Python `str(e)`. -/
def PyExc.msg : PyExc → PyStr
  | .httpRequestError m => m
  | .httpTimeout m => m
  | .connectionError m => m
  | .timeoutError m => m
  | .valueError m => m
  | .llmProviderError m => m

/-- tenacity `wait_exponential(multiplier=m, min=lo, max=hi)`: the sleep
after failed attempt `n` is `m * 2 ^ (n - 1)` clamped into `[max 0 lo, hi]`. -/
def waitExponential (multiplier minW maxW : ℚ) (n : Nat) : ℚ :=
  max (max 0 minW) (min (multiplier * 2 ^ (n - 1)) maxW)

/-- tenacity's retry loop with `reraise=True`: run attempt numbers starting
at 1; a failure is retried (after sleeping `waitFn attempt`) while the
predicate matches and attempts remain, and the last error is re-raised
unchanged.  Returns the outcome, the attempts made, and the sleeps
performed. -/
def retryAux (retriable : PyExc → Bool) (waitFn : Nat → ℚ)
    (call : Nat → Except PyExc α) :
    Nat → Nat → Except PyExc α × Nat × List ℚ
  | attempt, fuel =>
    match call attempt with
    | .ok a => (.ok a, attempt, [])
    | .error e =>
      match fuel with
      | 0 => (.error e, attempt, [])
      | f + 1 =>
        if retriable e then
          let r := retryAux retriable waitFn call (attempt + 1) f
          (r.1, r.2.1, waitFn attempt :: r.2.2)
        else (.error e, attempt, [])

/-- tenacity `retry(stop=stop_after_attempt maxAttempts, ...)`. -/
def retryRun (maxAttempts : Nat) (retriable : PyExc → Bool) (waitFn : Nat → ℚ)
    (call : Nat → Except PyExc α) : Except PyExc α × Nat × List ℚ :=
  retryAux retriable waitFn call 1 (maxAttempts - 1)

/-- `retry_if_exception_type((httpx.RequestError, httpx.TimeoutException))`
on the OpenAI/Google/LiteLLM wrappers. -/
def httpxRetriable : PyExc → Bool
  | .httpRequestError _ => true
  | .httpTimeout _ => true
  | _ => false

/-- `retry_if_exception_type((ConnectionError, TimeoutError))` on the Ollama
completion wrapper and on `generate_embedding`. -/
def connTimeoutRetriable : PyExc → Bool
  | .connectionError _ => true
  | .timeoutError _ => true
  | _ => false

/-- The body of `LLMService._call_openai`: a missing API key raises
`LLMProviderError`, and every exception of the client call (`request`) is
wrapped as `LLMProviderError("OpenAI API error: ...")` inside the function
the retry decorator wraps. -/
def callOpenaiBody (api_key : Option PyStr) (request : Except PyExc PyStr) :
    Except PyExc PyStr :=
  match api_key with
  | none => .error (.llmProviderError (("OPENAI_API_KEY not found in environment").toList))
  | some _ =>
    match request with
    | .ok text => .ok text
    | .error e => .error (.llmProviderError (("OpenAI API error: ").toList ++ e.msg))

/-- The body of `LLMService._call_google` (same shape, Google key and
message). -/
def callGoogleBody (api_key : Option PyStr) (request : Except PyExc PyStr) :
    Except PyExc PyStr :=
  match api_key with
  | none => .error (.llmProviderError (("GOOGLE_API_KEY not found in environment").toList))
  | some _ =>
    match request with
    | .ok text => .ok text
    | .error e => .error (.llmProviderError (("Google Gemini API error: ").toList ++ e.msg))

/-- The body of `LLMService._call_litellm`. -/
def callLitellmBody (request : Except PyExc PyStr) : Except PyExc PyStr :=
  match request with
  | .ok text => .ok text
  | .error e => .error (.llmProviderError (("LiteLLM API error: ").toList ++ e.msg))

/-- The body of `LLMService._call_ollama`. -/
def callOllamaBody (request : Except PyExc PyStr) : Except PyExc PyStr :=
  match request with
  | .ok text => .ok text
  | .error e => .error (.llmProviderError (("Ollama API error: ").toList ++ e.msg))

/-- `_call_openai` with its tenacity decorator
(3 attempts, `wait_exponential(multiplier=2, min=2, max=30)`, retry on
httpx request/timeout errors, reraise). -/
def call_openai (api_key : Option PyStr) (request : Nat → Except PyExc PyStr) :
    Except PyExc PyStr × Nat × List ℚ :=
  retryRun 3 httpxRetriable (waitExponential 2 2 30)
    (fun n => callOpenaiBody api_key (request n))

/-- `_call_google` with its tenacity decorator. -/
def call_google (api_key : Option PyStr) (request : Nat → Except PyExc PyStr) :
    Except PyExc PyStr × Nat × List ℚ :=
  retryRun 3 httpxRetriable (waitExponential 2 2 30)
    (fun n => callGoogleBody api_key (request n))

/-- `_call_litellm` with its tenacity decorator. -/
def call_litellm (request : Nat → Except PyExc PyStr) :
    Except PyExc PyStr × Nat × List ℚ :=
  retryRun 3 httpxRetriable (waitExponential 2 2 30)
    (fun n => callLitellmBody (request n))

/-- `_call_ollama` with its tenacity decorator (retry on
ConnectionError/TimeoutError). -/
def call_ollama (request : Nat → Except PyExc PyStr) :
    Except PyExc PyStr × Nat × List ℚ :=
  retryRun 3 connTimeoutRetriable (waitExponential 2 2 30)
    (fun n => callOllamaBody (request n))

/-- The `llm_providers.provider_name` enum, plus a value outside it. -/
inductive ProviderName where
  | openai
  | google
  | litellm
  | ollama
  | unsupported
deriving DecidableEq, Repr

/-- `LLMService.generate_completion`: a missing provider record raises
`ValueError` before the dispatch `try`; inside it, an unsupported name raises
`ValueError`, `LLMProviderError` is re-raised as is, and any other exception
is wrapped as `LLMProviderError("Unexpected error in LLM completion: ...")`. -/
def generate_completion (provider : Option ProviderName)
    (api_key : Option PyStr) (request : Nat → Except PyExc PyStr) :
    Except PyExc PyStr :=
  match provider with
  | none => .error (.valueError (("LLM provider not found").toList))
  | some name =>
    let r : Except PyExc PyStr :=
      match name with
      | .openai => (call_openai api_key request).1
      | .google => (call_google api_key request).1
      | .litellm => (call_litellm request).1
      | .ollama => (call_ollama request).1
      | .unsupported => .error (.valueError (("Unsupported provider").toList))
    match r with
    | .ok s => .ok s
    | .error (.llmProviderError m) => .error (.llmProviderError m)
    | .error e =>
      .error (.llmProviderError
        (("Unexpected error in LLM completion: ").toList ++ e.msg))

/-- `f"Invalid embedding dimension: expected 768, got ..."`. -/
def dimensionMsg (n : Nat) : PyStr :=
  ("Invalid embedding dimension: expected 768, got ").toList ++ (Nat.repr n).toList

/-- The body of `EmbeddingService.generate_embedding`: a returned vector of
the wrong length raises `ValueError`; `ConnectionError`/`TimeoutError` are
re-raised for tenacity; `ValueError` is re-raised unretried; anything else is
wrapped as a `ConnectionError`. -/
def generateEmbeddingBody (response : Except PyExc (List ℚ)) :
    Except PyExc (List ℚ) :=
  match response with
  | .ok v =>
    if v.length ≠ 768 then .error (.valueError (dimensionMsg v.length)) else .ok v
  | .error (.connectionError m) => .error (.connectionError m)
  | .error (.timeoutError m) => .error (.timeoutError m)
  | .error (.valueError m) => .error (.valueError m)
  | .error e =>
    .error (.connectionError (("Failed to generate embedding: ").toList ++ e.msg))

/-- `generate_embedding` with its tenacity decorator
(3 attempts, `wait_exponential(multiplier=1, max=30)`, retry on
ConnectionError/TimeoutError, reraise). -/
def generate_embedding (response : Nat → Except PyExc (List ℚ)) :
    Except PyExc (List ℚ) × Nat × List ℚ :=
  retryRun 3 connTimeoutRetriable (waitExponential 1 0 30)
    (fun n => generateEmbeddingBody (response n))

/-- A stored chunk whose embedding points opposite the example query. -/
def exChunkNeg : ChunkRow := ⟨1, 1, [], 0, none, [-1, 0]⟩

/-- A one-chunk corpus holding `exChunkNeg` under project 1. -/
def exDbNeg : VectorDb := ⟨[exChunkNeg], [⟨1, 1, []⟩], [⟨1, 1⟩]⟩

/-- The example query vector. -/
def exQuery : List ℝ := [1, 0]

/-- The engine's cosine distance of `exChunkNeg.embedding` to `exQuery`. -/
def exDistNeg : List ℚ → ℚ := fun _ => 2

/-- A stored chunk whose embedding equals the example query. -/
def exChunkPos : ChunkRow := ⟨1, 1, [], 0, none, [1, 0]⟩

/-- A one-chunk corpus holding `exChunkPos` under project 1. -/
def exDbPos : VectorDb := ⟨[exChunkPos], [⟨1, 1, []⟩], [⟨1, 1⟩]⟩

/-- The engine's cosine distance of `exChunkPos.embedding` to `exQuery`. -/
def exDistPos : List ℚ → ℚ := fun _ => 0

/-- Example files for exercising the sync pipeline. -/
def exFileA : FileInfo := ⟨['a'], []⟩

/-- Second example file (the one made to fail). -/
def exFileB : FileInfo := ⟨['b'], []⟩

/-- Third example file. -/
def exFileC : FileInfo := ⟨['c'], []⟩

/-- Fourth example file. -/
def exFileD : FileInfo := ⟨['d'], []⟩

/-- Fifth example file. -/
def exFileE : FileInfo := ⟨['e'], []⟩

/-- The document each example file is stored as. -/
def exDocOf : FileInfo → StoredDoc := fun f => ⟨0, f.path, ("md").toList, []⟩

/-- A download oracle that succeeds on every file. -/
def exDownload : FileInfo → Except PyStr (PyStr × PyStr) := fun _ => .ok ([], [])

/-- A storage oracle that succeeds on every file. -/
def exStore : FileInfo → PyStr → PyStr → Except PyStr StoredDoc :=
  fun f _ _ => .ok (exDocOf f)

/-- An embedding-pipeline oracle that raises exactly on the document of
`exFileB`. -/
def exEmbed : StoredDoc → Except PyStr Nat :=
  fun d => if d.file_path = ['b'] then .error (("boom").toList) else .ok 2

/-- A storage oracle that raises exactly on `exFileB`. -/
def exStoreFailB : FileInfo → PyStr → PyStr → Except PyStr StoredDoc :=
  fun f _ _ =>
    if f.path = ['b'] then .error (("db down").toList) else .ok (exDocOf f)

/-- An embedding-pipeline oracle that always succeeds. -/
def exEmbedOk : StoredDoc → Except PyStr Nat := fun _ => .ok 3

/-- A concrete stored document row for exercising `upsert`. -/
def exDoc0 : DocumentRow :=
  ⟨7, 1, ("docs/a.md").toList, ("old").toList, ("md").toList, 3, [], 5, 5⟩

/-! ## Theorems -/

/-- Unpacking membership in the three-table join of `similarity_search`. -/
theorem mem_joinedRows {db : VectorDb} {r : ChunkRow × DocumentRef × ProjectDocRef}
    (hr : r ∈ joinedRows db) :
    r.1 ∈ db.chunks ∧ r.2.1 ∈ db.documents ∧ r.2.2 ∈ db.project_docs ∧
      r.2.1.id = r.1.document_id ∧ r.2.2.id = r.2.1.project_doc_id := by
  unfold joinedRows at hr
  simp only [List.mem_flatMap, List.mem_map, List.mem_filter, beq_iff_eq] at hr
  obtain ⟨c, hc, d, ⟨hd, hdid⟩, p, ⟨hp, hpid⟩, rfl⟩ := hr
  exact ⟨hc, hd, hp, hdid, hpid⟩

/-- Cauchy-Schwarz, upper side, for the list dot product. -/
theorem dotL_le_sqrt (a b : List ℝ) (hlen : a.length = b.length) :
    dotL a b ≤ Real.sqrt (dotL a a) * Real.sqrt (dotL b b) := by
  have h1 : min a.length b.length = b.length := by rw [hlen, min_self]
  have h2 : min a.length a.length = b.length := by rw [min_self, hlen]
  have h3 : min b.length b.length = b.length := min_self _
  unfold dotL
  rw [h1, h2, h3]
  have := Real.sum_mul_le_sqrt_mul_sqrt (Finset.range b.length)
    (fun i => a.getD i 0) (fun i => b.getD i 0)
  simpa [pow_two] using this

/-- Cauchy-Schwarz, lower side, for the list dot product. -/
theorem neg_dotL_le_sqrt (a b : List ℝ) (hlen : a.length = b.length) :
    -dotL a b ≤ Real.sqrt (dotL a a) * Real.sqrt (dotL b b) := by
  have h1 : min a.length b.length = b.length := by rw [hlen, min_self]
  have h2 : min a.length a.length = b.length := by rw [min_self, hlen]
  have h3 : min b.length b.length = b.length := min_self _
  unfold dotL
  rw [h1, h2, h3]
  have := Real.sum_mul_le_sqrt_mul_sqrt (Finset.range b.length)
    (fun i => -(a.getD i 0)) (fun i => b.getD i 0)
  simp only [neg_mul, Finset.sum_neg_distrib, neg_sq, pow_two] at this
  simpa [pow_two] using this

/-- The spec-modelled cosine distance always lies in `[0, 2]` for vectors of
equal length (including degenerate zero vectors, where the engine-style
division yields distance 1). -/
theorem cosineDistance_mem_zero_two (a b : List ℝ) (hlen : a.length = b.length) :
    0 ≤ cosineDistance a b ∧ cosineDistance a b ≤ 2 := by
  unfold cosineDistance
  have hN0 : 0 ≤ Real.sqrt (dotL a a) * Real.sqrt (dotL b b) :=
    mul_nonneg (Real.sqrt_nonneg _) (Real.sqrt_nonneg _)
  rcases eq_or_lt_of_le hN0 with h0 | hpos
  · rw [← h0, div_zero]
    norm_num
  · have hup : dotL a b / (Real.sqrt (dotL a a) * Real.sqrt (dotL b b)) ≤ 1 :=
      (div_le_one hpos).2 (dotL_le_sqrt a b hlen)
    have hlo : -1 ≤ dotL a b / (Real.sqrt (dotL a a) * Real.sqrt (dotL b b)) := by
      rw [le_div_iff₀ hpos]
      have := neg_dotL_le_sqrt a b hlen
      linarith
    constructor <;> linarith

/-- In `find_nearest_header`, the head of the sorted preceding-header list is
maximal among all preceding headers: every other preceding header has a
strictly smaller offset, or the same offset and a level that is not smaller. -/
theorem nearest_head_maximal (pos : Nat) (headers : List HeaderInfo)
    (nearest : HeaderInfo) (rest : List HeaderInfo)
    (hs : List.insertionSort nearestKeyLE
        (headers.filter (fun h => h.char_position < pos)) = nearest :: rest) :
    nearest ∈ headers ∧ nearest.char_position < pos ∧
      ∀ h' ∈ headers, h'.char_position < pos →
        h'.char_position < nearest.char_position ∨
          (h'.char_position = nearest.char_position ∧ nearest.level ≤ h'.level) := by
  have hperm := List.perm_insertionSort nearestKeyLE
    (headers.filter (fun h => h.char_position < pos))
  rw [hs] at hperm
  have hsorted := List.sorted_insertionSort nearestKeyLE
    (headers.filter (fun h => h.char_position < pos))
  rw [hs] at hsorted
  have hmem : nearest ∈ headers.filter (fun h => h.char_position < pos) :=
    hperm.mem_iff.mp (List.mem_cons_self nearest rest)
  rw [List.mem_filter] at hmem
  refine ⟨hmem.1, by simpa using hmem.2, ?_⟩
  intro h' hh' hlt
  have hmem' : h' ∈ nearest :: rest := by
    refine hperm.symm.mem_iff.mp ?_
    rw [List.mem_filter]
    exact ⟨hh', by simpa using hlt⟩
  rcases List.mem_cons.mp hmem' with heq | htail
  · subst heq; right; exact ⟨rfl, le_refl _⟩
  · have hrel := List.rel_of_sorted_cons hsorted h' htail
    unfold nearestKeyLE at hrel
    omega

/-- C1: for every chunk position and header list, `find_nearest_header`
returns the anchor of a preceding header that is maximal in offset (ties
broken towards the lower level number), is absent when no header precedes the
chunk, and is also absent when that maximal header's generated anchor is the
empty string. -/
theorem find_nearest_header_nearest_preceding (pos : Nat)
    (headers : List HeaderInfo) :
    (∀ a : PyStr, find_nearest_header pos headers = some a →
      ∃ h ∈ headers, h.char_position < pos ∧ h.anchor = a ∧ a ≠ [] ∧
        ∀ h' ∈ headers, h'.char_position < pos →
          h'.char_position < h.char_position ∨
            (h'.char_position = h.char_position ∧ h.level ≤ h'.level)) ∧
    (find_nearest_header pos headers = none →
      (∀ h ∈ headers, ¬ h.char_position < pos) ∨
      ∃ h ∈ headers, h.char_position < pos ∧ h.anchor = [] ∧
        ∀ h' ∈ headers, h'.char_position < pos →
          h'.char_position < h.char_position ∨
            (h'.char_position = h.char_position ∧ h.level ≤ h'.level)) := by
  unfold find_nearest_header
  cases hs : List.insertionSort nearestKeyLE
      (headers.filter (fun h => h.char_position < pos)) with
  | nil =>
    refine ⟨fun a ha => by simp at ha, fun _ => Or.inl ?_⟩
    have hperm := List.perm_insertionSort nearestKeyLE
      (headers.filter (fun h => h.char_position < pos))
    rw [hs] at hperm
    have hnil := hperm.symm.eq_nil
    intro h hh
    have := List.filter_eq_nil_iff.mp hnil h hh
    simpa using this
  | cons nearest rest =>
    obtain ⟨hmem, hpos, hmax⟩ := nearest_head_maximal pos headers nearest rest hs
    dsimp only
    by_cases hanch : nearest.anchor = []
    · refine ⟨fun a ha => ?_, fun _ => Or.inr ⟨nearest, hmem, hpos, hanch, hmax⟩⟩
      rw [if_pos hanch] at ha
      exact absurd ha (by simp)
    · refine ⟨fun a ha => ?_, fun hnone => ?_⟩
      · rw [if_neg hanch] at ha
        obtain rfl : nearest.anchor = a := Option.some_injective _ ha
        exact ⟨nearest, hmem, hpos, rfl, hanch, hmax⟩
      · rw [if_neg hanch] at hnone
        exact absurd hnone (by simp)

/-- C2: `header_to_anchor` agrees with the spec's anchor-generation pipeline
on every input, and produces the spec's three example anchors. -/
theorem header_to_anchor_matches_spec :
    (∀ t : PyStr, header_to_anchor t = anchorGen t) ∧
    header_to_anchor ("API (v2.0)".toList) = ("api-v20".toList) ∧
    header_to_anchor ("Introduction & Overview".toList) =
      ("introduction--overview".toList) ∧
    header_to_anchor ("   ".toList) = ([] : PyStr) := by
  refine ⟨fun t => ?_, by decide, by decide, by decide⟩
  by_cases h : t = []
  · subst h; rfl
  · simp only [header_to_anchor, anchorGen, if_neg h, List.map_map]
    rfl

/-- C3 (amended): for every stored corpus, engine distance, query, project
and limit in `[1, 20]`, `similarity_search` succeeds with at most `limit`
results ordered by score descending, each score being `1 - cosineDistance`
and lying in `[-1, 1]` whenever the engine distances agree with the cosine
distance to the query; no returned chunk belongs to a document whose parent
collection is outside the requested project, and every limit outside
`[1, 20]` fails with the invalid-argument error. -/
theorem similarity_search_contract (db : VectorDb) (dist : List ℚ → ℚ)
    (query : List ℝ) (project_id : Nat) (limit : Int)
    (h1 : 1 ≤ limit) (h2 : limit ≤ 20)
    (hcos : ∀ c ∈ db.chunks, c.embedding.length = query.length ∧
      ((dist c.embedding : ℝ)) = cosineDistance (ratEmbed c.embedding) query) :
    (∃ rows, similarity_search db dist project_id limit = .ok rows ∧
      rows.length ≤ limit.toNat ∧
      List.Pairwise (fun x y : ChunkRow × ℚ => y.2 ≤ x.2) rows ∧
      ∀ cs ∈ rows, cs.2 = 1 - dist cs.1.embedding ∧
        -1 ≤ cs.2 ∧ cs.2 ≤ 1 ∧
        ∃ d ∈ db.documents, ∃ p ∈ db.project_docs,
          d.id = cs.1.document_id ∧ p.id = d.project_doc_id ∧
          p.project_id = project_id) ∧
    ∀ limit' : Int, limit' < 1 ∨ 20 < limit' →
      similarity_search db dist project_id limit' =
        .error ("limit must be between 1 and 20".toList) := by
  constructor
  · have hnot : ¬(limit < 1 ∨ limit > 20) := by omega
    unfold similarity_search
    rw [if_neg hnot]
    set filtered := (joinedRows db).filter
      (fun r => r.2.2.project_id == project_id) with hfiltered
    set sorted := List.insertionSort (rowDistLE dist) filtered with hsortdef
    refine ⟨_, rfl, ?_, ?_, ?_⟩
    · rw [List.length_map]
      exact List.length_take_le _ _
    · have hsorted : List.Sorted (rowDistLE dist) sorted :=
        List.sorted_insertionSort (rowDistLE dist) filtered

      have htake : List.Pairwise (rowDistLE dist) (sorted.take limit.toNat) :=
        hsorted.sublist (List.take_sublist _ _)
      rw [List.pairwise_map]
      exact htake.imp fun {a b} hab => by
        simpa using sub_le_sub_left hab 1
    · intro cs hcs
      rw [List.mem_map] at hcs
      obtain ⟨r, hrtake, rfl⟩ := hcs
      have hrsorted : r ∈ sorted := List.mem_of_mem_take hrtake
      have hrfilt : r ∈ filtered :=
        (List.perm_insertionSort (rowDistLE dist) filtered).mem_iff.mp hrsorted
      rw [hfiltered, List.mem_filter] at hrfilt
      obtain ⟨hrjoin, hproj⟩ := hrfilt
      have hproj' : r.2.2.project_id = project_id := by simpa using hproj
      obtain ⟨hc, hd, hp, hdid, hpid⟩ := mem_joinedRows hrjoin
      obtain ⟨hlen, hdist⟩ := hcos r.1 hc
      have hlen' : (ratEmbed r.1.embedding).length = query.length := by
        simpa [ratEmbed] using hlen
      obtain ⟨hcd0, hcd2⟩ :=
        cosineDistance_mem_zero_two (ratEmbed r.1.embedding) query hlen'
      refine ⟨rfl, ?_, ?_, r.2.1, hd, r.2.2, hp, hdid, hpid, hproj'⟩
      · have : (-1 : ℝ) ≤ ((1 - dist r.1.embedding : ℚ) : ℝ) := by
          push_cast
          rw [hdist]
          linarith
        exact_mod_cast this
      · have : ((1 - dist r.1.embedding : ℚ) : ℝ) ≤ 1 := by
          push_cast
          rw [hdist]
          linarith
        exact_mod_cast this
  · intro limit' hbad
    unfold similarity_search
    rw [if_pos (by omega)]

/-- Witness for `similarity_search_contract`: a one-chunk corpus whose only
embedding equals the query, searched with limit 5. -/
theorem similarity_search_contract_witness :
    (1 : Int) ≤ 5 ∧ (5 : Int) ≤ 20 ∧
    ((∃ rows, similarity_search exDbPos exDistPos 1 5 = .ok rows ∧
      rows.length ≤ (5 : Int).toNat ∧
      List.Pairwise (fun x y : ChunkRow × ℚ => y.2 ≤ x.2) rows ∧
      ∀ cs ∈ rows, cs.2 = 1 - exDistPos cs.1.embedding ∧
        -1 ≤ cs.2 ∧ cs.2 ≤ 1 ∧
        ∃ d ∈ exDbPos.documents, ∃ p ∈ exDbPos.project_docs,
          d.id = cs.1.document_id ∧ p.id = d.project_doc_id ∧
          p.project_id = 1) ∧
    ∀ limit' : Int, limit' < 1 ∨ 20 < limit' →
      similarity_search exDbPos exDistPos 1 limit' =
        .error ("limit must be between 1 and 20".toList)) := by
  refine ⟨by decide, by decide, ?_⟩
  refine similarity_search_contract exDbPos exDistPos exQuery 1 5
    (by decide) (by decide) ?_
  intro c hc
  simp only [exDbPos, List.mem_singleton] at hc
  subst hc
  constructor
  · decide
  · show ((exDistPos exChunkPos.embedding : ℚ) : ℝ) =
      cosineDistance (ratEmbed exChunkPos.embedding) exQuery
    simp only [exDistPos, exChunkPos, exQuery, ratEmbed, cosineDistance, dotL]
    norm_num [Finset.sum_range_succ, Real.sqrt_one]

/-- Counterexample to C3 as stated: a stored embedding opposite to the query
has cosine distance 2 (so the engine's score `1 - distance` is `-1`), and the
search returns that score, which is not in `[0, 1]`. -/
theorem similarity_search_score_not_in_unit_interval :
    ((exDistNeg exChunkNeg.embedding : ℚ) : ℝ) =
      cosineDistance (ratEmbed exChunkNeg.embedding) exQuery ∧
    similarity_search exDbNeg exDistNeg 1 5 = .ok [(exChunkNeg, -1)] ∧
    ¬(0 ≤ (-1 : ℚ)) := by
  refine ⟨?_, ?_, by decide⟩
  · simp only [exDistNeg, exChunkNeg, exQuery, ratEmbed, cosineDistance, dotL]
    norm_num [Finset.sum_range_succ, Real.sqrt_one]
  · norm_num [similarity_search, joinedRows, exDbNeg, exChunkNeg, exDistNeg,
      List.insertionSort, List.orderedInsert]

/-- C8: when a successful response reports fewer than 5 remaining requests
and a reset time in the future, the rate-limit check suspends the calling
coroutine for `reset - now` seconds before the next request; at or above the
threshold there is no wait.  (`check_rate_limit` is a total function — the
code path raises nothing.) -/
theorem check_rate_limit_suspends (remaining limit reset : Nat) (now : ℚ)
    (hrem : remaining < 5) (hfut : now < (reset : ℚ)) :
    check_rate_limit (some remaining) (some limit) (some reset) now =
      (reset : ℚ) - now ∧
    ∀ (remainingHdr limitHdr resetHdr : Option Nat) (now' : ℚ),
      5 ≤ remainingHdr.getD 999 →
      check_rate_limit remainingHdr limitHdr resetHdr now' = 0 := by
  constructor
  · unfold check_rate_limit
    simp only [Option.getD_some]
    rw [if_pos hrem, if_pos (by linarith)]
  · intro rh lh sh now' h5
    unfold check_rate_limit
    rw [if_neg (by omega)]

/-- Witness for `check_rate_limit_suspends`: the spec's scenario with
remaining 4 and the reset 10 seconds ahead waits those 10 seconds. -/
theorem check_rate_limit_suspends_witness :
    4 < 5 ∧ (100 : ℚ) < ((110 : Nat) : ℚ) ∧
    check_rate_limit (some 4) (some 60) (some 110) 100 = ((110 : Nat) : ℚ) - 100 :=
  ⟨by decide, by norm_num,
    (check_rate_limit_suspends 4 60 110 100 (by decide) (by norm_num)).1⟩

/-- If a predicate holds for at most one element of a list, `find?` locates
any member satisfying it. -/
theorem find?_eq_of_unique {α} {p : α → Bool} :
    ∀ {l : List α} {x : α}, (l.filter p).length ≤ 1 → x ∈ l → p x = true →
      l.find? p = some x := by
  intro l
  induction l with
  | nil => intro x _ hx _; simp at hx
  | cons a t ih =>
    intro x hlen hx hpx
    rcases List.mem_cons.mp hx with rfl | hxt
    · exact List.find?_cons_of_pos _ hpx
    · by_cases hpa : p a = true
      · exfalso
        have hxf : x ∈ t.filter p := List.mem_filter.mpr ⟨hxt, hpx⟩
        have h1 : 0 < (t.filter p).length :=
          List.length_pos.mpr (List.ne_nil_of_mem hxf)
        simp only [List.filter_cons, if_pos hpa, List.length_cons] at hlen
        omega
      · rw [List.find?_cons_of_neg _ (by simpa using hpa)]
        refine ih ?_ hxt hpx
        simpa [List.filter_cons, hpa] using hlen

/-- C9: `upsert` on a table satisfying the (collection id, path) uniqueness
invariant updates the matching row in place — same id and creation
timestamp, unchanged row count, only content, file type, file size, metadata
and the update timestamp changed, all other rows untouched — and appends a
fresh row exactly when no row matches. -/
theorem upsert_no_duplicate (db : List DocumentRow)
    (newId now project_doc_id : Nat) (file_path content file_type : PyStr)
    (file_size : Nat) (commit_sha : PyStr)
    (metadata : Option (List (PyStr × PyStr)))
    (hUnique : (db.filter (docMatches project_doc_id file_path)).length ≤ 1) :
    (∀ existing ∈ db, docMatches project_doc_id file_path existing = true →
      ∃ doc db',
        upsert db newId now project_doc_id file_path content file_type
            file_size commit_sha metadata = .ok (doc, db') ∧
        db'.length = db.length ∧
        doc.id = existing.id ∧ doc.created_at = existing.created_at ∧
        doc.project_doc_id = existing.project_doc_id ∧
        doc.file_path = existing.file_path ∧
        doc.content = content ∧ doc.file_type = file_type ∧
        doc.file_size = file_size ∧
        doc.doc_metadata = metaUpdate commit_sha metadata ∧
        doc.updated_at = now ∧
        db' = db.map
          (fun d => if docMatches project_doc_id file_path d then doc else d)) ∧
    ((∀ d ∈ db, docMatches project_doc_id file_path d = false) →
      ∃ doc,
        upsert db newId now project_doc_id file_path content file_type
            file_size commit_sha metadata = .ok (doc, db ++ [doc]) ∧
        doc = ⟨newId, project_doc_id, file_path, content, file_type, file_size,
          metaInsert commit_sha metadata, now, now⟩) := by
  constructor
  · intro existing hmem hmatch
    have hfind := find?_eq_of_unique hUnique hmem hmatch
    refine ⟨{ existing with
        content := content
        file_size := file_size
        file_type := file_type
        doc_metadata := metaUpdate commit_sha metadata
        updated_at := now }, _, ?_,
      (List.length_map _ _), rfl, rfl, rfl, rfl, rfl, rfl, rfl, rfl, rfl, rfl⟩
    unfold upsert
    rw [if_neg (by omega), hfind]
  · intro hnone
    have hfind : db.find? (docMatches project_doc_id file_path) = none :=
      List.find?_eq_none.mpr (fun x hx => by simp [hnone x hx])
    refine ⟨_, ?_, rfl⟩
    unfold upsert
    rw [if_neg (by omega), hfind]

/-- Witness for `upsert_no_duplicate`: re-ingesting the path of `exDoc0`
updates that row, and ingesting a fresh path appends a row. -/
theorem upsert_no_duplicate_witness :
    (([exDoc0].filter (docMatches 1 (("docs/a.md").toList))).length ≤ 1) ∧
    ((∀ existing ∈ [exDoc0],
        docMatches 1 (("docs/a.md").toList) existing = true →
      ∃ doc db',
        upsert [exDoc0] 9 6 1 (("docs/a.md").toList) (("new").toList)
            (("md").toList) 4 (("sha1").toList) none = .ok (doc, db') ∧
        db'.length = [exDoc0].length ∧
        doc.id = existing.id ∧ doc.created_at = existing.created_at ∧
        doc.project_doc_id = existing.project_doc_id ∧
        doc.file_path = existing.file_path ∧
        doc.content = ("new").toList ∧ doc.file_type = ("md").toList ∧
        doc.file_size = 4 ∧
        doc.doc_metadata = metaUpdate (("sha1").toList) none ∧
        doc.updated_at = 6 ∧
        db' = [exDoc0].map
          (fun d => if docMatches 1 (("docs/a.md").toList) d then doc else d)) ∧
    ((∀ d ∈ [exDoc0], docMatches 1 (("docs/a.md").toList) d = false) →
      ∃ doc,
        upsert [exDoc0] 9 6 1 (("docs/a.md").toList) (("new").toList)
            (("md").toList) 4 (("sha1").toList) none = .ok (doc, [exDoc0] ++ [doc]) ∧
        doc = ⟨9, 1, ("docs/a.md").toList, ("new").toList, ("md").toList, 4,
          metaInsert (("sha1").toList) none, 6, 6⟩)) :=
  ⟨by decide,
    upsert_no_duplicate [exDoc0] 9 6 1 (("docs/a.md").toList) (("new").toList)
      (("md").toList) 4 (("sha1").toList) none (by decide)⟩

/-- Processing the `pyBatch` batches one after another is the plain
left-to-right fold over all items. -/
theorem foldl_pyBatch {α β : Type _} (g : β → α → β) (k' : Nat) :
    ∀ (l : List α) (init : β),
      (pyBatch l (k' + 1)).foldl (fun acc batch => batch.foldl g acc) init =
        l.foldl g init
  | [], _ => by simp [pyBatch]
  | a :: t, init => by
    rw [show pyBatch (a :: t) (k' + 1) =
        (a :: t).take (k' + 1) :: pyBatch ((a :: t).drop (k' + 1)) (k' + 1) from
      by simp [pyBatch]]
    rw [List.foldl_cons]
    rw [foldl_pyBatch g k' ((a :: t).drop (k' + 1))
      (((a :: t).take (k' + 1)).foldl g init)]
    rw [← List.foldl_append, List.take_append_drop]
termination_by l => l.length
decreasing_by simp [List.length_drop]; omega

/-- The download loop on files that all download cleanly collects them in
order and adds no errors. -/
theorem downloadStep_all_ok (download : FileInfo → Except PyStr (PyStr × PyStr))
    (content sha : FileInfo → PyStr) :
    ∀ (files : List FileInfo) (acc : List (FileInfo × PyStr × PyStr) × List PyStr),
      (∀ f ∈ files, download f = .ok (content f, sha f)) →
      files.foldl (downloadStep download) acc =
        (acc.1 ++ files.map (fun f => (f, content f, sha f)), acc.2) := by
  intro files
  induction files with
  | nil => intro acc _; simp
  | cons a t ih =>
    intro acc h
    have ha := h a (List.mem_cons_self a t)
    simp only [List.foldl_cons, downloadStep, ha]
    rw [ih _ (fun f hf => h f (List.mem_cons_of_mem _ hf))]
    simp

/-- The storage loop on a segment of files that all store cleanly appends
their documents in order. -/
theorem storeStep_all_ok (store : FileInfo → PyStr → PyStr → Except PyStr StoredDoc)
    (content sha : FileInfo → PyStr) (docF : FileInfo → StoredDoc) :
    ∀ (files : List FileInfo) (acc : List StoredDoc),
      (∀ f ∈ files, store f (content f) (sha f) = .ok (docF f)) →
      (files.map (fun f => (f, content f, sha f))).foldl (storeStep store) acc =
        acc ++ files.map docF := by
  intro files
  induction files with
  | nil => intro acc _; simp
  | cons a t ih =>
    intro acc h
    have ha := h a (List.mem_cons_self a t)
    simp only [List.map_cons, List.foldl_cons, storeStep, ha]
    rw [ih _ (fun f hf => h f (List.mem_cons_of_mem _ hf))]
    simp

/-- The per-document result loop on documents that all embed cleanly only
accumulates the embedding count: no failed files, no error messages. -/
theorem processDoc_all_ok (embed : StoredDoc → Except PyStr Nat) :
    ∀ (docs : List StoredDoc) (acc : Nat × List PyStr × List PyStr),
      (∀ d ∈ docs, ∃ n, embed d = .ok n) →
      ∃ s, docs.foldl (processDoc embed) acc = (acc.1 + s, acc.2.1, acc.2.2) := by
  intro docs
  induction docs with
  | nil => intro acc _; exact ⟨0, by simp⟩
  | cons d t ih =>
    intro acc h
    obtain ⟨n, hn⟩ := h d (List.mem_cons_self d t)
    obtain ⟨s, hs⟩ :=
      ih (acc.1 + n, acc.2.1, acc.2.2) (fun x hx => h x (List.mem_cons_of_mem _ hx))
    refine ⟨n + s, ?_⟩
    simp only [List.foldl_cons, processDoc, hn]
    rw [hs]
    simp [Nat.add_assoc]

/-- A completed run (ProjectDoc found, tree listed, downloads clean, step-5
commit date handled) produces the success `SyncResult` computed from the
storage and embedding outcomes. -/
theorem sync_ok_shape (project_doc_id : Nat) (files : List FileInfo)
    (download : FileInfo → Except PyStr (PyStr × PyStr))
    (store : FileInfo → PyStr → PyStr → Except PyStr StoredDoc)
    (embed : StoredDoc → Except PyStr Nat)
    (content sha : FileInfo → PyStr) (cd : CommitOutcome) (duration : ℚ)
    (hdl : ∀ f ∈ files, download f = .ok (content f, sha f))
    (hcd : ∀ e, cd ≠ .unhandled e) :
    sync_project_doc project_doc_id true (.ok files) download store embed cd
        duration =
      ⟨true,
        (store_documents_batch store
          (files.map (fun f => (f, content f, sha f)))).length,
        ((store_documents_batch store
            (files.map (fun f => (f, content f, sha f)))).foldl
          (processDoc embed) (0, [], [])).2.1.length,
        ((store_documents_batch store
            (files.map (fun f => (f, content f, sha f)))).foldl
          (processDoc embed) (0, [], [])).2.2,
        duration⟩ := by
  unfold sync_project_doc
  rw [if_neg (by simp)]
  dsimp only
  rw [downloadStep_all_ok download content sha files ([], []) hdl]
  simp only [List.nil_append]
  have hproc :
      processBatches embed
          (pyBatch (store_documents_batch store
            (files.map fun f => (f, content f, sha f))) 5) (0, [], []) =
        (store_documents_batch store
          (files.map fun f => (f, content f, sha f))).foldl
          (processDoc embed) (0, [], []) :=
    foldl_pyBatch (processDoc embed) 4 _ _
  rw [hproc]

/-- C4: a five-file run whose downloads and stores all succeed but in which
exactly one document raises during its chunk/embed/index step returns
success with filesSynced 5, filesFailed 1, and an errors entry naming the
failed file's path; the failure aborts no sibling; and success is false
exactly when the run dies before the success result is produced (missing
ProjectDoc, failed listing, or an unhandled step-5 exception). -/
theorem sync_partial_failure (project_doc_id : Nat)
    (pre post : List FileInfo) (bad : FileInfo)
    (download : FileInfo → Except PyStr (PyStr × PyStr))
    (store : FileInfo → PyStr → PyStr → Except PyStr StoredDoc)
    (embed : StoredDoc → Except PyStr Nat)
    (content sha : FileInfo → PyStr) (docF : FileInfo → StoredDoc)
    (cd : CommitOutcome) (duration : ℚ) (emsg : PyStr)
    (hfive : (pre ++ bad :: post).length = 5)
    (hdl : ∀ f ∈ pre ++ bad :: post, download f = .ok (content f, sha f))
    (hst : ∀ f ∈ pre ++ bad :: post, store f (content f) (sha f) = .ok (docF f))
    (hokpre : ∀ f ∈ pre, ∃ n, embed (docF f) = .ok n)
    (hfail : embed (docF bad) = .error emsg)
    (hokpost : ∀ f ∈ post, ∃ n, embed (docF f) = .ok n)
    (hcd : ∀ e, cd ≠ .unhandled e) :
    ((sync_project_doc project_doc_id true (.ok (pre ++ bad :: post)) download
        store embed cd duration).success = true ∧
      (sync_project_doc project_doc_id true (.ok (pre ++ bad :: post)) download
        store embed cd duration).files_synced = 5 ∧
      (sync_project_doc project_doc_id true (.ok (pre ++ bad :: post)) download
        store embed cd duration).files_failed = 1 ∧
      embedFailMsg (docF bad).file_path emsg ∈
        (sync_project_doc project_doc_id true (.ok (pre ++ bad :: post)) download
          store embed cd duration).errors) ∧
    (∀ (found : Bool) (tree : Except PyStr (List FileInfo)) (cd' : CommitOutcome),
      (sync_project_doc project_doc_id found tree download store embed cd'
          duration).success = false ↔
        (found = false ∨ (∃ e, tree = .error e) ∨
          ((∃ fs, tree = .ok fs) ∧ ∃ e, cd' = .unhandled e))) := by
  constructor
  · have hshape := sync_ok_shape project_doc_id (pre ++ bad :: post) download
      store embed content sha cd duration hdl hcd
    have hstored : store_documents_batch store
        ((pre ++ bad :: post).map (fun f => (f, content f, sha f))) =
        (pre ++ bad :: post).map docF := by
      unfold store_documents_batch
      rw [storeStep_all_ok store content sha docF (pre ++ bad :: post) [] hst]
      simp
    have hpre' : ∀ d ∈ pre.map docF, ∃ n, embed d = .ok n := by
      intro d hd
      obtain ⟨f, hf, rfl⟩ := List.mem_map.mp hd
      exact hokpre f hf
    have hpost' : ∀ d ∈ post.map docF, ∃ n, embed d = .ok n := by
      intro d hd
      obtain ⟨f, hf, rfl⟩ := List.mem_map.mp hd
      exact hokpost f hf
    obtain ⟨s1, hs1⟩ := processDoc_all_ok embed (pre.map docF)
      ((0, [], []) : Nat × List PyStr × List PyStr) hpre'
    obtain ⟨s2, hs2⟩ := processDoc_all_ok embed (post.map docF)
      ((0 + s1, [(docF bad).file_path],
        [embedFailMsg (docF bad).file_path emsg]) : Nat × List PyStr × List PyStr)
      hpost'
    have hfold2 : ((pre ++ bad :: post).map docF).foldl (processDoc embed)
        ((0, [], []) : Nat × List PyStr × List PyStr) =
        (0 + s1 + s2, [(docF bad).file_path],
          [embedFailMsg (docF bad).file_path emsg]) := by
      rw [List.map_append, List.map_cons, List.foldl_append, List.foldl_cons,
        hs1]
      have hstep : processDoc embed
          ((0 + s1, [], []) : Nat × List PyStr × List PyStr) (docF bad) =
          (0 + s1, [(docF bad).file_path],
            [embedFailMsg (docF bad).file_path emsg]) := by
        simp [processDoc, hfail]
      rw [hstep, hs2]
    refine ⟨?_, ?_, ?_, ?_⟩
    · rw [hshape]
    · rw [hshape]
      show (store_documents_batch store
        ((pre ++ bad :: post).map (fun f => (f, content f, sha f)))).length = 5
      rw [hstored, List.length_map]
      exact hfive
    · rw [hshape]
      show ((store_documents_batch store
          ((pre ++ bad :: post).map (fun f => (f, content f, sha f)))).foldl
        (processDoc embed) (0, [], [])).2.1.length = 1
      rw [hstored, hfold2]
      rfl
    · rw [hshape]
      show embedFailMsg (docF bad).file_path emsg ∈
        ((store_documents_batch store
            ((pre ++ bad :: post).map (fun f => (f, content f, sha f)))).foldl
          (processDoc embed) (0, [], [])).2.2
      rw [hstored, hfold2]
      exact List.mem_singleton.mpr rfl
  · intro found tree cd'
    cases found
    · simp [sync_project_doc]
    · cases tree with
      | error e => simp [sync_project_doc]
      | ok fs =>
        cases cd' with
        | ok => simp [sync_project_doc]
        | ghError m => simp [sync_project_doc]
        | unhandled e => simp [sync_project_doc]

/-- Witness for `sync_partial_failure`: five files, file `b` failing its
embedding step. -/
theorem sync_partial_failure_witness :
    (sync_project_doc 1 true
        (.ok ([exFileA] ++ exFileB :: [exFileC, exFileD, exFileE]))
        exDownload exStore exEmbed .ok 0).success = true ∧
    (sync_project_doc 1 true
        (.ok ([exFileA] ++ exFileB :: [exFileC, exFileD, exFileE]))
        exDownload exStore exEmbed .ok 0).files_synced = 5 ∧
    (sync_project_doc 1 true
        (.ok ([exFileA] ++ exFileB :: [exFileC, exFileD, exFileE]))
        exDownload exStore exEmbed .ok 0).files_failed = 1 ∧
    embedFailMsg (exDocOf exFileB).file_path (("boom").toList) ∈
      (sync_project_doc 1 true
        (.ok ([exFileA] ++ exFileB :: [exFileC, exFileD, exFileE]))
        exDownload exStore exEmbed .ok 0).errors :=
  (sync_partial_failure 1 [exFileA] [exFileC, exFileD, exFileE] exFileB
    exDownload exStore exEmbed (fun _ => []) (fun _ => []) exDocOf .ok 0
    (("boom").toList)
    (by decide) (fun _ _ => rfl) (fun _ _ => rfl)
    (fun f hf => by fin_cases hf <;> exact ⟨2, rfl⟩)
    rfl
    (fun f hf => by fin_cases hf <;> exact ⟨2, rfl⟩)
    (fun e h => CommitOutcome.noConfusion h)).1

/-- C10: a file that downloads but whose storage raises is silently dropped:
it is excluded from the stored documents (its siblings are all stored), it is
not counted in filesSynced or filesFailed, and no error message is recorded
for it. -/
theorem sync_store_failure_silent (project_doc_id : Nat)
    (pre post : List FileInfo) (bad : FileInfo)
    (download : FileInfo → Except PyStr (PyStr × PyStr))
    (store : FileInfo → PyStr → PyStr → Except PyStr StoredDoc)
    (embed : StoredDoc → Except PyStr Nat)
    (content sha : FileInfo → PyStr) (docF : FileInfo → StoredDoc)
    (cd : CommitOutcome) (duration : ℚ) (serr : PyStr)
    (hdl : ∀ f ∈ pre ++ bad :: post, download f = .ok (content f, sha f))
    (hstpre : ∀ f ∈ pre, store f (content f) (sha f) = .ok (docF f))
    (hstbad : store bad (content bad) (sha bad) = .error serr)
    (hstpost : ∀ f ∈ post, store f (content f) (sha f) = .ok (docF f))
    (hemb : ∀ f ∈ pre ++ post, ∃ n, embed (docF f) = .ok n)
    (hcd : ∀ e, cd ≠ .unhandled e) :
    store_documents_batch store
        ((pre ++ bad :: post).map (fun f => (f, content f, sha f))) =
      (pre ++ post).map docF ∧
    (sync_project_doc project_doc_id true (.ok (pre ++ bad :: post)) download
      store embed cd duration).success = true ∧
    (sync_project_doc project_doc_id true (.ok (pre ++ bad :: post)) download
      store embed cd duration).files_synced = pre.length + post.length ∧
    (sync_project_doc project_doc_id true (.ok (pre ++ bad :: post)) download
      store embed cd duration).files_failed = 0 ∧
    (sync_project_doc project_doc_id true (.ok (pre ++ bad :: post)) download
      store embed cd duration).errors = [] := by
  have hstored : store_documents_batch store
      ((pre ++ bad :: post).map (fun f => (f, content f, sha f))) =
      (pre ++ post).map docF := by
    unfold store_documents_batch
    rw [List.map_append, List.map_cons, List.foldl_append, List.foldl_cons]
    rw [storeStep_all_ok store content sha docF pre [] hstpre]
    have hbadstep : storeStep store ([] ++ pre.map docF)
        (bad, content bad, sha bad) = [] ++ pre.map docF := by
      simp [storeStep, hstbad]
    rw [hbadstep, storeStep_all_ok store content sha docF post _ hstpost]
    simp
  have hshape := sync_ok_shape project_doc_id (pre ++ bad :: post) download
    store embed content sha cd duration hdl hcd
  have hemb' : ∀ d ∈ (pre ++ post).map docF, ∃ n, embed d = .ok n := by
    intro d hd
    obtain ⟨f, hf, rfl⟩ := List.mem_map.mp hd
    exact hemb f hf
  obtain ⟨s, hs⟩ := processDoc_all_ok embed ((pre ++ post).map docF)
    ((0, [], []) : Nat × List PyStr × List PyStr) hemb'
  refine ⟨hstored, ?_, ?_, ?_, ?_⟩
  · rw [hshape]
  · rw [hshape]
    show (store_documents_batch store
      ((pre ++ bad :: post).map (fun f => (f, content f, sha f)))).length =
        pre.length + post.length
    rw [hstored, List.length_map, List.length_append]
  · rw [hshape]
    show ((store_documents_batch store
        ((pre ++ bad :: post).map (fun f => (f, content f, sha f)))).foldl
      (processDoc embed) (0, [], [])).2.1.length = 0
    rw [hstored, hs]
    rfl
  · rw [hshape]
    show ((store_documents_batch store
        ((pre ++ bad :: post).map (fun f => (f, content f, sha f)))).foldl
      (processDoc embed) (0, [], [])).2.2 = []
    rw [hstored, hs]

/-- Witness for `sync_store_failure_silent`: five downloads succeed, storing
file `b` raises, the other four are stored and embedded. -/
theorem sync_store_failure_silent_witness :
    store_documents_batch exStoreFailB
        (([exFileA] ++ exFileB :: [exFileC, exFileD, exFileE]).map
          (fun f => (f, (fun _ => ([] : PyStr)) f, (fun _ => ([] : PyStr)) f))) =
      ([exFileA] ++ [exFileC, exFileD, exFileE]).map exDocOf ∧
    (sync_project_doc 1 true
      (.ok ([exFileA] ++ exFileB :: [exFileC, exFileD, exFileE]))
      exDownload exStoreFailB exEmbedOk .ok 0).success = true ∧
    (sync_project_doc 1 true
      (.ok ([exFileA] ++ exFileB :: [exFileC, exFileD, exFileE]))
      exDownload exStoreFailB exEmbedOk .ok 0).files_synced =
        [exFileA].length + [exFileC, exFileD, exFileE].length ∧
    (sync_project_doc 1 true
      (.ok ([exFileA] ++ exFileB :: [exFileC, exFileD, exFileE]))
      exDownload exStoreFailB exEmbedOk .ok 0).files_failed = 0 ∧
    (sync_project_doc 1 true
      (.ok ([exFileA] ++ exFileB :: [exFileC, exFileD, exFileE]))
      exDownload exStoreFailB exEmbedOk .ok 0).errors = [] :=
  sync_store_failure_silent 1 [exFileA] [exFileC, exFileD, exFileE] exFileB
    exDownload exStoreFailB exEmbedOk (fun _ => []) (fun _ => []) exDocOf .ok 0
    (("db down").toList)
    (fun _ _ => rfl)
    (fun f hf => by fin_cases hf <;> rfl)
    rfl
    (fun f hf => by fin_cases hf <;> rfl)
    (fun f hf => by fin_cases hf <;> exact ⟨3, rfl⟩)
    (fun e h => CommitOutcome.noConfusion h)

/-- C6 (code-bug evidence): every completion wrapper makes exactly one
attempt — the blanket `except Exception` inside each decorated body converts
every failure (request and timeout errors included) into `LLMProviderError`,
which the configured retry predicate never matches, so the decorator's
3-attempt exponential backoff can never fire.  A request error therefore
surfaces immediately as `LLMProviderError` after one attempt with no sleeps,
and an unsupported provider name surfaces as a wrapped `LLMProviderError`
rather than the documented configuration `ValueError`. -/
theorem llm_retry_never_fires :
    (∀ (k : Option PyStr) (req : Nat → Except PyExc PyStr),
      (call_openai k req).2.1 = 1) ∧
    (∀ (k : Option PyStr) (req : Nat → Except PyExc PyStr),
      (call_google k req).2.1 = 1) ∧
    (∀ req : Nat → Except PyExc PyStr, (call_litellm req).2.1 = 1) ∧
    (∀ req : Nat → Except PyExc PyStr, (call_ollama req).2.1 = 1) ∧
    call_openai (some (("k").toList))
        (fun _ => .error (.httpRequestError (("connection reset").toList))) =
      (.error (.llmProviderError (("OpenAI API error: connection reset").toList)),
        1, []) ∧
    generate_completion (some .unsupported) none (fun _ => .ok []) =
      .error (.llmProviderError
        (("Unexpected error in LLM completion: Unsupported provider").toList)) := by
  refine ⟨?_, ?_, ?_, ?_, by rfl, by rfl⟩
  · intro k req
    unfold call_openai retryRun
    cases k with
    | none => simp [retryAux, callOpenaiBody, httpxRetriable]
    | some s =>
      cases hreq : req 1 with
      | ok t => simp [retryAux, callOpenaiBody, hreq]
      | error e => simp [retryAux, callOpenaiBody, hreq, httpxRetriable]
  · intro k req
    unfold call_google retryRun
    cases k with
    | none => simp [retryAux, callGoogleBody, httpxRetriable]
    | some s =>
      cases hreq : req 1 with
      | ok t => simp [retryAux, callGoogleBody, hreq]
      | error e => simp [retryAux, callGoogleBody, hreq, httpxRetriable]
  · intro req
    unfold call_litellm retryRun
    cases hreq : req 1 with
    | ok t => simp [retryAux, callLitellmBody, hreq]
    | error e => simp [retryAux, callLitellmBody, hreq, httpxRetriable]
  · intro req
    unfold call_ollama retryRun
    cases hreq : req 1 with
    | ok t => simp [retryAux, callOllamaBody, hreq]
    | error e => simp [retryAux, callOllamaBody, hreq, connTimeoutRetriable]

/-- C7: the embedding call never retries a dimension mismatch, retries
transient connection/timeout failures up to 3 attempts surfacing the original
error unchanged on exhaustion, and its backoff schedule is exponential with
values 1s, 2s, 4s (capped at 30s). -/
theorem generate_embedding_retry_policy :
    (∀ (response : Nat → Except PyExc (List ℚ)) (v : List ℚ),
      response 1 = .ok v → v.length ≠ 768 →
      generate_embedding response =
        (.error (.valueError (dimensionMsg v.length)), 1, [])) ∧
    (∀ (response : Nat → Except PyExc (List ℚ)) (m : PyStr),
      (∀ n, response n = .error (.connectionError m)) →
      generate_embedding response =
        (.error (.connectionError m), 3,
          [waitExponential 1 0 30 1, waitExponential 1 0 30 2])) ∧
    (∀ (response : Nat → Except PyExc (List ℚ)) (m : PyStr) (v : List ℚ),
      response 1 = .error (.timeoutError m) → response 2 = .ok v →
      v.length = 768 →
      generate_embedding response = (.ok v, 2, [waitExponential 1 0 30 1])) ∧
    waitExponential 1 0 30 1 = 1 ∧ waitExponential 1 0 30 2 = 2 ∧
    waitExponential 1 0 30 3 = 4 := by
  refine ⟨?_, ?_, ?_, ?_, ?_, ?_⟩
  · intro response v h1 hlen
    unfold generate_embedding retryRun
    simp [retryAux, generateEmbeddingBody, h1, hlen, connTimeoutRetriable]
  · intro response m h
    unfold generate_embedding retryRun
    simp [retryAux, generateEmbeddingBody, h 1, h 2, h 3, connTimeoutRetriable]
  · intro response m v h1 h2 hv
    unfold generate_embedding retryRun
    simp [retryAux, generateEmbeddingBody, h1, h2, hv, connTimeoutRetriable]
  · norm_num [waitExponential]
  · norm_num [waitExponential]
  · norm_num [waitExponential]

/-- Witness for `generate_embedding_retry_policy`: a permanently down
endpoint is retried to exhaustion and surfaces its `ConnectionError`; a
wrong-dimension vector fails at the first attempt without retry. -/
theorem generate_embedding_retry_policy_witness :
    generate_embedding (fun _ => .error (.connectionError (("down").toList))) =
      (.error (.connectionError (("down").toList)), 3,
        [waitExponential 1 0 30 1, waitExponential 1 0 30 2]) ∧
    generate_embedding (fun _ => .ok ([] : List ℚ)) =
      (.error (.valueError (dimensionMsg ([] : List ℚ).length)), 1, []) :=
  ⟨generate_embedding_retry_policy.2.1 _ (("down").toList) (fun _ => rfl),
    generate_embedding_retry_policy.1 _ [] rfl (by decide)⟩

/-- The source attributions are the thresholded search rows, in order, with
the tool's field mapping and 4-decimal rounding. -/
theorem format_sources_execute (db : VectorDb) (th : ℚ) :
    ∀ res : List (ChunkRow × ℚ),
      format_sources (vectorSearchExecute db th res) =
        (res.filter (fun r => th ≤ r.2)).map
          (fun r => ⟨r.1.document_id, filePathOf db r.1, r.1.header_anchor,
            round4 r.2⟩) := by
  intro res
  induction res with
  | nil => rfl
  | cons a t ih =>
    by_cases h : th ≤ a.2
    · simp only [vectorSearchExecute, List.filterMap_cons, if_pos h,
        List.filter_cons, format_sources, List.map_cons] at ih ⊢
      rw [decide_eq_true h]
      simp only [List.map_cons]
      exact congrArg _ ih
    · simp only [vectorSearchExecute, List.filterMap_cons, if_neg h,
        List.filter_cons, format_sources] at ih ⊢
      rw [decide_eq_false h]
      simpa using ih

/-- C5: with no chunk at or above the similarity threshold, `process_query`
answers the fixed no-results text with an empty source list and its result
does not depend on the completion provider; otherwise the provider's text is
returned with one `SourceAttribution` per retrieved chunk, in the search's
ranking order, carrying document id, source path, anchor, and the similarity
rounded to 4 decimal places — and a provider failure propagates unchanged. -/
theorem process_query_contract :
    (∀ (db : VectorDb) (th : ℚ) (res : List (ChunkRow × ℚ))
        (llm llm' : Except PyStr PyStr),
      vectorSearchExecute db th res = [] →
      process_query db th res llm = .ok ⟨NO_RESULTS_TEXT, []⟩ ∧
      process_query db th res llm = process_query db th res llm') ∧
    (∀ (db : VectorDb) (th : ℚ) (res : List (ChunkRow × ℚ)) (text : PyStr),
      vectorSearchExecute db th res ≠ [] →
      process_query db th res (.ok text) =
        .ok ⟨text, (res.filter (fun r => th ≤ r.2)).map
          (fun r => ⟨r.1.document_id, filePathOf db r.1, r.1.header_anchor,
            round4 r.2⟩)⟩) ∧
    (∀ (db : VectorDb) (th : ℚ) (res : List (ChunkRow × ℚ)) (e : PyStr),
      vectorSearchExecute db th res ≠ [] →
      process_query db th res (.error e) = .error e) := by
  refine ⟨?_, ?_, ?_⟩
  · intro db th res llm llm' h
    constructor
    · simp [process_query, h]
    · simp [process_query, h]
  · intro db th res text h
    simp only [process_query, if_neg h, Except.map]
    rw [format_sources_execute]
  · intro db th res e h
    simp [process_query, h, Except.map]

/-- Witness for `process_query_contract`: a below-threshold result list
yields the fixed text without consulting the provider, and an
above-threshold one yields the provider's text with the mapped source. -/
theorem process_query_contract_witness :
    vectorSearchExecute exDbPos 0 [(exChunkNeg, -1)] = [] ∧
    process_query exDbPos 0 [(exChunkNeg, -1)] (.ok (("hi").toList)) =
      .ok ⟨NO_RESULTS_TEXT, []⟩ ∧
    vectorSearchExecute exDbPos 0 [(exChunkPos, 1)] ≠ [] ∧
    process_query exDbPos 0 [(exChunkPos, 1)] (.ok (("hi").toList)) =
      .ok ⟨("hi").toList,
        (([(exChunkPos, (1 : ℚ))]).filter (fun r => (0 : ℚ) ≤ r.2)).map
          (fun r => ⟨r.1.document_id, filePathOf exDbPos r.1,
            r.1.header_anchor, round4 r.2⟩)⟩ := by
  have hempty : vectorSearchExecute exDbPos 0 [(exChunkNeg, -1)] = [] := by
    simp [vectorSearchExecute]
  have hne : vectorSearchExecute exDbPos 0 [(exChunkPos, 1)] ≠ [] := by
    simp [vectorSearchExecute]
  exact ⟨hempty,
    (process_query_contract.1 exDbPos 0 [(exChunkNeg, -1)]
      (.ok (("hi").toList)) (.error []) hempty).1,
    hne,
    process_query_contract.2.1 exDbPos 0 [(exChunkPos, 1)] (("hi").toList) hne⟩

end BmadFlow
